import Mathlib

/-
Verification of the active-game front-end core (src/frontend/app/activeGame.js):
the token animator (animate / startAnimation, driven by a single interval
timer), the playerMove handler (onPlayerMove), the property-ownership handler
(onPropertyOwnerChanges), and the listener registration pair
(enableActiveGameListeners / disableActiveGameListeners).

Shallow embedding conventions:
  - JS numbers that hold board positions and player ids are modelled as Int.
  - A JS object used as a string-keyed map is an association list with unique
    keys; assignment to an existing key replaces it in place, assignment to an
    absent key appends it (JS object semantics).
  - Module-level mutable state is a GameState record threaded explicitly.
  - A handler that would throw at runtime (property access on undefined)
    returns none.
  - DOM side effects (token redraws, button enabling, view updates) are
    recorded as a list of RenderAction values; calls to external collaborators
    that render nothing of the modelled state (game log, user details) are
    outside the model.
  - setInterval is modelled by drawing a fresh interval id, recording it in
    the list of armed intervals and in the timer variable; clearInterval
    removes the id currently held by the timer variable; a timer tick can
    only occur while some interval is armed (sysTick).
-/

/-- An owner object of an ownership-change payload: an id and a display name. -/
structure Owner where
  id : Int
  name : String
deriving DecidableEq

/-- The property field of an ownership-change payload. -/
structure Property where
  position : Int
  name : String
deriving DecidableEq

/-- One element of a propertyOwnerChanges payload. -/
structure OwnerChange where
  property : Property
  oldOwner : Option Owner
  newOwner : Option Owner
deriving DecidableEq

/-- The per-player record of playerPositions; the source field named end is
modelled as endPos (a Lean keyword clash). -/
structure PlayerPos where
  current : Int
  endPos : Int
deriving DecidableEq

/-- One parsed tuple of a playerMove payload:
[playerID, newPosition, oldPosition, jailedFlag]. -/
structure MoveTuple where
  playerID : Int
  newPosition : Int
  oldPosition : Int
  jailed : Bool
deriving DecidableEq

/-- One row handed to the owned-properties view: the property name and the
old and new owner names, none standing for a null owner (rendered unowned). -/
structure ViewRow where
  property : String
  oldOwner : Option String
  newOwner : Option String
deriving DecidableEq

/-- A recorded DOM side effect of a handler or animation tick. -/
inductive RenderAction where
  | movePlayer (player : Int) (position : Int) (token : Option String)
  | enableBuyPropertyButton (gameID : Int) (playerID : Int) (position : Int)
  | viewUpdate (rows : List ViewRow)
deriving DecidableEq

/-- Association-list lookup, modelling a JS object property read. -/
def lookupKey {α : Type} : List (Int × α) → Int → Option α
  | [], _ => none
  | q :: qs, k => if q.1 = k then some q.2 else lookupKey qs k

/-- Association-list membership test, modelling the JS in operator. -/
def hasKey {α : Type} : List (Int × α) → Int → Bool
  | [], _ => false
  | q :: qs, k => if q.1 = k then true else hasKey qs k

/-- Association-list assignment, modelling a JS object property write:
replaces the entry of an existing key, appends a new entry otherwise. -/
def setKey {α : Type} : List (Int × α) → Int → α → List (Int × α)
  | [], k, v => [(k, v)]
  | q :: qs, k, v => if q.1 = k then (k, v) :: qs else q :: setKey qs k v

/-- The key list of an association list. -/
def keys {α : Type} (m : List (Int × α)) : List Int :=
  m.map (fun q => q.1)

/-- Removal of one interval id from the list of armed intervals,
modelling clearInterval on that id. -/
def clearId : List Nat → Nat → List Nat
  | [], _ => []
  | i :: is, k => if i = k then clearId is k else i :: clearId is k

/-- The module-level mutable state of activeGame.js. -/
structure GameState where
  playerPositions : List (Int × PlayerPos)
  playerTokens : List (Int × String)
  currentPlayer : Option Int
  timer : Option Nat
  activeIntervals : List Nat
  nextIntervalId : Nat
  propertyOwners : List (Int × Option Owner)
  gameID : Int
deriving DecidableEq

/-- The clearInterval(timer) call: removes the interval id currently held by
the timer variable from the armed intervals; a no-op when timer holds no id. -/
def clearIntervalTimer (s : GameState) : GameState :=
  match s.timer with
  | none => s
  | some i => { s with activeIntervals := clearId s.activeIntervals i }

/-- The startAnimation function: timer = setInterval(animate, 500). A fresh
interval id is armed and stored in the timer variable; the previously stored
id is overwritten without being cleared. -/
def startAnimation (s : GameState) : GameState :=
  { s with
      timer := some s.nextIntervalId
      activeIntervals := s.activeIntervals ++ [s.nextIntervalId]
      nextIntervalId := s.nextIntervalId + 1 }

/-- The animate function, one interval tick. Returns none where the source
would throw (no current player, or the current player has no position
record). Non-jail branch: increment current, wrap past 39, redraw, and on
reaching the target clear the interval and the current-player marker. Jail
branch (target 99): redraw at 99, set current to 99, clear the interval and
the marker. -/
def animate (s : GameState) : Option (GameState × List RenderAction) :=
  match s.currentPlayer with
  | none => none
  | some cp =>
    match lookupKey s.playerPositions cp with
    | none => none
    | some pp =>
      if pp.endPos ≠ 99 then
        let c1 := pp.current + 1
        let nextPosition := if c1 > 39 then c1 - 40 else c1
        let s1 := { s with
          playerPositions := setKey s.playerPositions cp { pp with current := nextPosition } }
        let acts := [RenderAction.movePlayer cp nextPosition (lookupKey s.playerTokens cp)]
        if nextPosition = pp.endPos then
          some ({ clearIntervalTimer s1 with currentPlayer := none }, acts)
        else
          some (s1, acts)
      else
        let s1 := { s with
          playerPositions := setKey s.playerPositions cp { pp with current := 99 } }
        some ({ clearIntervalTimer s1 with currentPlayer := none },
          [RenderAction.movePlayer cp 99 (lookupKey s.playerTokens cp)])

/-- Iteration of animate for a given number of ticks, discarding render
actions; none as soon as a tick throws. -/
def animateN : Nat → GameState → Option GameState
  | 0, s => some s
  | n + 1, s =>
    match animate s with
    | none => none
    | some (s1, _) => animateN n s1

/-- A timer tick of the event loop: an animate callback can run only while
some interval is armed. -/
def sysTick (s : GameState) : Option (GameState × List RenderAction) :=
  if s.activeIntervals = [] then none else animate s

/-- The single-cell advance of the non-jail animation branch. -/
def stepPos (c : Int) : Int :=
  if c + 1 > 39 then c + 1 - 40 else c + 1

/-- A canonical mid-animation state: one player p at position c with stored
target t, one armed interval tid held by the timer variable. -/
def mkAnimState (p c t : Int) (tid : Nat) : GameState :=
  { playerPositions := [(p, { current := c, endPos := t })]
    playerTokens := []
    currentPlayer := some p
    timer := some tid
    activeIntervals := [tid]
    nextIntervalId := tid + 1
    propertyOwners := []
    gameID := 0 }

/-- The state an animation started as mkAnimState ends in: the player rests
at the target t, the interval is cleared (the timer variable still holds the
stale id tid), and the current-player marker is cleared. -/
def doneAnimState (p t : Int) (tid : Nat) : GameState :=
  { playerPositions := [(p, { current := t, endPos := t })]
    playerTokens := []
    currentPlayer := none
    timer := some tid
    activeIntervals := []
    nextIntervalId := tid + 1
    propertyOwners := []
    gameID := 0 }

/-- The onPlayerMove handler on its parsed payload, a list of move tuples.
Only the first tuple is read (items 0..2 of the flattened string, and the
destructured first pair). Sets the global current-player marker, forces
current to 9 on a jail-departure old position of -1, maps a new position of
-1 to the jail sentinel target 99, stores the target, starts the animation
timer, and enables the buy-property button exactly when the mover is the
local user and the landing position is a tracked, unowned property. Returns
none where the source would throw (empty payload, or the moving player has
no position record). -/
def onPlayerMove (s : GameState) (userID : Int) (eventData : List MoveTuple) :
    Option (GameState × List RenderAction) :=
  match eventData with
  | [] => none
  | t :: _ =>
    let player := t.playerID
    let s1 := { s with currentPlayer := some player }
    match lookupKey s1.playerPositions player with
    | none => none
    | some pp0 =>
      let pp1 := if t.oldPosition = -1 then { pp0 with current := 9 } else pp0
      let endPosition : Int := if t.newPosition = -1 then 99 else t.newPosition
      let s2 := { s1 with
        playerPositions := setKey s1.playerPositions player { pp1 with endPos := endPosition } }
      let s3 := startAnimation s2
      let acts :=
        if t.playerID = userID ∧ hasKey s3.propertyOwners t.newPosition = true ∧
            lookupKey s3.propertyOwners t.newPosition = some none then
          [RenderAction.enableBuyPropertyButton s3.gameID t.playerID t.newPosition]
        else []
      some (s3, acts)

/-- The onPropertyOwnerChanges handler: writes the first change of the
payload into the ownership map (eventData[0]), then hands every change to
the owned-properties view with each null owner passed as none. Returns none
where the source would throw (empty payload, eventData[0] undefined). -/
def onPropertyOwnerChanges (s : GameState) (eventData : List OwnerChange) :
    Option (GameState × List RenderAction) :=
  match eventData with
  | [] => none
  | c0 :: _ =>
    let s1 := { s with
      propertyOwners := setKey s.propertyOwners c0.property.position c0.newOwner }
    let rows := eventData.map (fun change =>
      { property := change.property.name
        oldOwner := change.oldOwner.map Owner.name
        newOwner := change.newOwner.map Owner.name : ViewRow })
    some (s1, [RenderAction.viewUpdate rows])

/-- The ownership map built by the activeGame session-start loop: every
listed property position is installed mapping to null (unowned). -/
def initPropertyOwners (propertyPositions : List Int) : List (Int × Option Owner) :=
  propertyPositions.foldl (fun m p => setKey m p none) []

/-- The seven handlers of the active-game session, as registration tokens. -/
inductive GameHandler where
  | onPlayerMove
  | onPlayerTurn
  | onPlayerBalance
  | onPlayerJailed
  | onPropertyOwnerChanges
  | onHouseEvent
  | onGameEnd
deriving DecidableEq

/-- The registration list of the shared push-connection object: pairs of an
event name and a handler. -/
abbrev ListenerList := List (String × GameHandler)

/-- EventTarget.addEventListener: a duplicate of an already registered
(name, handler) pair is discarded, otherwise the pair is appended. -/
def addEventListener (ls : ListenerList) (name : String) (h : GameHandler) : ListenerList :=
  if (name, h) ∈ ls then ls else ls ++ [(name, h)]

/-- EventTarget.removeEventListener: removes the (name, handler) pair. -/
def removeEventListener (ls : ListenerList) (name : String) (h : GameHandler) : ListenerList :=
  ls.filter (fun q => decide (q ≠ (name, h)))

/-- The enableActiveGameListeners function: registers all seven handlers on
the shared event source, in source order. -/
def enableActiveGameListeners (ls : ListenerList) : ListenerList :=
  addEventListener (addEventListener (addEventListener (addEventListener
    (addEventListener (addEventListener (addEventListener ls
      "playerMove" GameHandler.onPlayerMove)
      "playerTurn" GameHandler.onPlayerTurn)
      "playerBalance" GameHandler.onPlayerBalance)
      "playerJailed" GameHandler.onPlayerJailed)
      "propertyOwnerChanges" GameHandler.onPropertyOwnerChanges)
      "houseEvent" GameHandler.onHouseEvent)
      "gameEnd" GameHandler.onGameEnd

/-- The disableActiveGameListeners function: removes six listeners, in
source order; the source has no removeEventListener call for playerJailed. -/
def disableActiveGameListeners (ls : ListenerList) : ListenerList :=
  removeEventListener (removeEventListener (removeEventListener
    (removeEventListener (removeEventListener (removeEventListener ls
      "playerMove" GameHandler.onPlayerMove)
      "playerTurn" GameHandler.onPlayerTurn)
      "playerBalance" GameHandler.onPlayerBalance)
      "propertyOwnerChanges" GameHandler.onPropertyOwnerChanges)
      "houseEvent" GameHandler.onHouseEvent)
      "gameEnd" GameHandler.onGameEnd

/-- The onGameEnd handler, restricted to its effect on the registration
list: it deregisters via disableActiveGameListeners, then hands off to the
external game-over presentation. -/
def onGameEnd (ls : ListenerList) : ListenerList :=
  disableActiveGameListeners ls

/-- An event named n is dispatched to a handler h exactly when the pair
(n, h) is registered. -/
def firesFor (ls : ListenerList) (n : String) (h : GameHandler) : Prop :=
  (n, h) ∈ ls

/-- A concrete session state used by witnesses: one player (id 1) resting at
cell 3, one tracked unowned property at position 5, game id 7. -/
def sampleState : GameState :=
  { playerPositions := [(1, { current := 3, endPos := 3 })]
    playerTokens := []
    currentPlayer := none
    timer := none
    activeIntervals := []
    nextIntervalId := 0
    propertyOwners := [(5, none)]
    gameID := 7 }

/-- A session state in the middle of an animation: player 1 is moving from
cell 3 toward cell 7, interval id 0 is armed and held by the timer variable,
and the next fresh interval id is 1. -/
def midAnimState : GameState :=
  { playerPositions := [(1, { current := 3, endPos := 7 })]
    playerTokens := []
    currentPlayer := some 1
    timer := some 0
    activeIntervals := [0]
    nextIntervalId := 1
    propertyOwners := []
    gameID := 7 }

/-- A concrete ownership transfer used by witnesses: position 1 goes from
null to Alice. -/
def changeA : OwnerChange :=
  { property := { position := 1, name := "PositionOne" }
    oldOwner := none
    newOwner := some { id := 1, name := "Alice" } }

/-- A concrete ownership transfer used by witnesses: position 3 goes from
null to Bob. -/
def changeB : OwnerChange :=
  { property := { position := 3, name := "PositionThree" }
    oldOwner := none
    newOwner := some { id := 2, name := "Bob" } }

/-- Unfolding of one non-jail animate tick on the canonical mid-animation
state: the position advances by stepPos; on hitting the target the interval
and the current-player marker are cleared, otherwise the animation state is
reproduced at the advanced position. -/
theorem animate_mkAnimState (p c t : Int) (tid : Nat) (ht : t ≠ 99) :
    animate (mkAnimState p c t tid) =
      if stepPos c = t then
        some (doneAnimState p t tid, [RenderAction.movePlayer p (stepPos c) none])
      else
        some (mkAnimState p (stepPos c) t tid,
          [RenderAction.movePlayer p (stepPos c) none]) := by
  unfold animate mkAnimState doneAnimState clearIntervalTimer stepPos
  simp only [lookupKey, setKey, clearId, if_true, eq_self_iff_true, ht, ne_eq,
    not_false_eq_true, if_pos]
  split <;> split <;> simp_all

/-- Peeling one successful tick off an iterated animation run. -/
theorem animateN_succ_of_animate (n : Nat) (s s1 : GameState)
    (acts : List RenderAction) (h : animate s = some (s1, acts)) :
    animateN (n + 1) s = animateN n s1 := by
  simp [animateN, h]

/-- A run of ((t - f - 1) mod 40) + 1 animate ticks from position f reaches
the stored target t and ends in the stopped state. -/
theorem animateRun : ∀ (n : Nat) (p f t : Int) (tid : Nat),
    0 ≤ f → f ≤ 39 → 0 ≤ t → t ≤ 39 →
    (n : Int) = (t - f - 1) % 40 + 1 →
    animateN n (mkAnimState p f t tid) = some (doneAnimState p t tid) := by
  intro n
  induction n with
  | zero =>
    intro p f t tid hf0 hf1 ht0 ht1 hn
    exfalso
    push_cast at hn
    omega
  | succ k ih =>
    intro p f t tid hf0 hf1 ht0 ht1 hn
    have ht99 : t ≠ 99 := by omega
    by_cases hdone : stepPos f = t
    · have hk : k = 0 := by
        simp only [stepPos] at hdone
        push_cast at hn
        by_cases h39 : f + 1 > 39
        · rw [if_pos h39] at hdone
          omega
        · rw [if_neg h39] at hdone
          omega
      subst hk
      have hb : animate (mkAnimState p f t tid) =
          some (doneAnimState p t tid, [RenderAction.movePlayer p (stepPos f) none]) := by
        rw [animate_mkAnimState p f t tid ht99, if_pos hdone]
      rw [animateN_succ_of_animate 0 (mkAnimState p f t tid) (doneAnimState p t tid)
        [RenderAction.movePlayer p (stepPos f) none] hb]
      rfl
    · have hb : animate (mkAnimState p f t tid) =
          some (mkAnimState p (stepPos f) t tid,
            [RenderAction.movePlayer p (stepPos f) none]) := by
        rw [animate_mkAnimState p f t tid ht99, if_neg hdone]
      rw [animateN_succ_of_animate k (mkAnimState p f t tid)
        (mkAnimState p (stepPos f) t tid)
        [RenderAction.movePlayer p (stepPos f) none] hb]
      have hs0 : 0 ≤ stepPos f := by
        simp only [stepPos]
        split <;> omega
      have hs1 : stepPos f ≤ 39 := by
        simp only [stepPos]
        split <;> omega
      have hk : (k : Int) = (t - stepPos f - 1) % 40 + 1 := by
        simp only [stepPos] at hdone ⊢
        push_cast at hn
        by_cases h39 : f + 1 > 39
        · rw [if_pos h39] at hdone ⊢
          omega
        · rw [if_neg h39] at hdone ⊢
          omega
      exact ih p (stepPos f) t tid hs0 hs1 ht0 ht1 hk

/-- During a run that has not yet reached its target, m ticks advance the
position to ((f + m) mod 40) while the animation stays live. -/
theorem animateRunMid : ∀ (m : Nat) (p f t : Int) (tid : Nat),
    0 ≤ f → f ≤ 39 → 0 ≤ t → t ≤ 39 →
    (m : Int) < (t - f - 1) % 40 + 1 →
    animateN m (mkAnimState p f t tid) = some (mkAnimState p ((f + m) % 40) t tid) := by
  intro m
  induction m with
  | zero =>
    intro p f t tid hf0 hf1 ht0 ht1 hm
    simp only [animateN, Nat.cast_zero, add_zero, Option.some.injEq]
    rw [Int.emod_eq_of_lt hf0 (by omega)]
  | succ k ih =>
    intro p f t tid hf0 hf1 ht0 ht1 hm
    have ht99 : t ≠ 99 := by omega
    have hdone : ¬ stepPos f = t := by
      simp only [stepPos]
      push_cast at hm
      by_cases h39 : f + 1 > 39
      · rw [if_pos h39]
        omega
      · rw [if_neg h39]
        omega
    have hb : animate (mkAnimState p f t tid) =
        some (mkAnimState p (stepPos f) t tid,
          [RenderAction.movePlayer p (stepPos f) none]) := by
      rw [animate_mkAnimState p f t tid ht99, if_neg hdone]
    rw [animateN_succ_of_animate k (mkAnimState p f t tid)
      (mkAnimState p (stepPos f) t tid)
      [RenderAction.movePlayer p (stepPos f) none] hb]
    have hs0 : 0 ≤ stepPos f := by
      simp only [stepPos]
      split <;> omega
    have hs1 : stepPos f ≤ 39 := by
      simp only [stepPos]
      split <;> omega
    have hm2 : (k : Int) < (t - stepPos f - 1) % 40 + 1 := by
      simp only [stepPos] at hdone ⊢
      push_cast at hm
      by_cases h39 : f + 1 > 39
      · rw [if_pos h39] at hdone ⊢
        omega
      · rw [if_neg h39] at hdone ⊢
        omega
    rw [ih p (stepPos f) t tid hs0 hs1 ht0 ht1 hm2]
    have heq : (stepPos f + (k : Int)) % 40 = (f + ((k + 1 : Nat) : Int)) % 40 := by
      simp only [stepPos]
      push_cast
      by_cases h39 : f + 1 > 39
      · rw [if_pos h39]
        omega
      · rw [if_neg h39]
        omega
    rw [heq]

/-- Looking up the key just assigned by setKey yields the assigned value. -/
theorem lookupKey_setKey_self {α : Type} (m : List (Int × α)) (k : Int) (v : α) :
    lookupKey (setKey m k v) k = some v := by
  induction m with
  | nil => simp [setKey, lookupKey]
  | cons q qs ih =>
    by_cases h : q.1 = k
    · simp [setKey, h, lookupKey]
    · simp [setKey, h, lookupKey, ih]

/-- Assigning one key with setKey leaves every other key's lookup unchanged. -/
theorem lookupKey_setKey_ne {α : Type} (m : List (Int × α)) (k k0 : Int) (v : α)
    (h : k ≠ k0) : lookupKey (setKey m k0 v) k = lookupKey m k := by
  have h2 : ¬ k0 = k := fun hh => h hh.symm
  induction m with
  | nil => simp [setKey, lookupKey, h2]
  | cons q qs ih =>
    by_cases hq : q.1 = k0
    · subst hq
      simp [setKey, lookupKey, h2]
    · simp [setKey, hq, lookupKey, ih]

/-- The key set after a setKey assignment is the old key set plus the
assigned key. -/
theorem mem_keys_setKey {α : Type} (m : List (Int × α)) (k0 : Int) (v : α) (k : Int) :
    k ∈ keys (setKey m k0 v) ↔ k ∈ keys m ∨ k = k0 := by
  induction m with
  | nil => simp [setKey, keys, eq_comm]
  | cons q qs ih =>
    by_cases h : q.1 = k0
    · subst h
      simp [setKey, keys, eq_comm]
      tauto
    · simp only [setKey, if_neg h, keys, List.map_cons, List.mem_cons] at ih ⊢
      tauto

/-- Membership after clearing one interval id: everything else survives. -/
theorem mem_clearId (l : List Nat) (k a : Nat) : a ∈ clearId l k ↔ a ∈ l ∧ a ≠ k := by
  induction l with
  | nil => simp [clearId]
  | cons i is ih =>
    by_cases h : i = k
    · subst h
      simp [clearId, ih]
      tauto
    · simp [clearId, h, ih]
      constructor
      · rintro (rfl | hh)
        · exact ⟨Or.inl rfl, h⟩
        · exact ⟨Or.inr hh.1, hh.2⟩
      · rintro ⟨rfl | hh, hne⟩
        · exact Or.inl rfl
        · exact Or.inr ⟨hh, hne⟩

/-- Claim C1, counterexample: with the stored target equal to the current
position (player 1 at cell 5, target 5), a single animate tick moves the
token to cell 6 and the animation keeps running (interval still armed,
current-player marker still set), instead of the claimed 0 ticks and
immediate stop; the run only completes after a full 40-tick loop of the
board. -/
theorem animate_at_target_keeps_moving :
    animate (mkAnimState 1 5 5 0) =
      some (mkAnimState 1 6 5 0, [RenderAction.movePlayer 1 6 none]) ∧
    (mkAnimState 1 6 5 0).currentPlayer = some 1 ∧
    (mkAnimState 1 6 5 0).activeIntervals = [0] ∧
    animateN 40 (mkAnimState 1 5 5 0) = some (doneAnimState 1 5 0) := by
  refine ⟨by decide, by decide, by decide, by decide⟩

/-- Claim C1 (amended): for a player at board position f in [0,39] with
stored target t in [0,39] (so not the jail sentinel 99), successive animate
ticks advance the position by exactly one cell per tick, wrapping from 39 to
0, and the animation reaches the target and stops after exactly
((t - f - 1) mod 40) + 1 ticks; this equals ((t - f + 40) mod 40) when
f is not equal to t, and 40 (a full board loop, not 0) when f equals t,
because the completion check only runs after the increment. -/
theorem animate_reaches_target (p f t : Int) (tid : Nat) (n : Nat)
    (hf0 : 0 ≤ f) (hf1 : f ≤ 39) (ht0 : 0 ≤ t) (ht1 : t ≤ 39)
    (hn : (n : Int) = (t - f - 1) % 40 + 1) :
    animateN n (mkAnimState p f t tid) = some (doneAnimState p t tid) ∧
    (∀ m : Nat, m < n → animateN m (mkAnimState p f t tid) =
      some (mkAnimState p ((f + m) % 40) t tid)) := by
  refine ⟨animateRun n p f t tid hf0 hf1 ht0 ht1 hn, ?_⟩
  intro m hm
  apply animateRunMid m p f t tid hf0 hf1 ht0 ht1
  omega

/-- Claim C1, witness: moving player 1 from cell 0 to cell 5 takes exactly 5
ticks and passes through (0 + m) mod 40 on the way. -/
theorem animate_reaches_target_witness :
    animateN 5 (mkAnimState 1 0 5 0) = some (doneAnimState 1 5 0) ∧
    (∀ m : Nat, m < 5 → animateN m (mkAnimState 1 0 5 0) =
      some (mkAnimState 1 ((0 + m) % 40) 5 0)) :=
  animate_reaches_target 1 0 5 0 5 (by norm_num) (by norm_num) (by norm_num)
    (by norm_num) (by norm_num)

/-- Claim C5: with the stored target equal to the jail sentinel 99, a single
animate tick renders the token directly at 99 (the jail cell in the
renderer's layout), stores current = 99, clears the armed interval and the
current-player marker, regardless of the prior position c and with no
intermediate cell rendered. -/
theorem animate_jail_sentinel (p c : Int) (tid : Nat) :
    animate (mkAnimState p c 99 tid) =
      some (doneAnimState p 99 tid, [RenderAction.movePlayer p 99 none]) := by
  unfold animate mkAnimState doneAnimState clearIntervalTimer
  simp [lookupKey, setKey, clearId]

/-- Claim C6: the tick on which the position becomes equal to the stored
target leaves the stopped state: the armed interval is cleared, the
current-player marker is cleared, and since a timer tick can only run while
an interval is armed (sysTick), no further tick occurs and no stored
position changes until a new animation is started. -/
theorem animation_stops_after_target (p f t : Int) (tid : Nat) (n : Nat)
    (hf0 : 0 ≤ f) (hf1 : f ≤ 39) (ht0 : 0 ≤ t) (ht1 : t ≤ 39)
    (hn : (n : Int) = (t - f - 1) % 40 + 1) :
    animateN n (mkAnimState p f t tid) = some (doneAnimState p t tid) ∧
    lookupKey (doneAnimState p t tid).playerPositions p =
      some { current := t, endPos := t } ∧
    (doneAnimState p t tid).activeIntervals = [] ∧
    (doneAnimState p t tid).currentPlayer = none ∧
    sysTick (doneAnimState p t tid) = none ∧
    (∀ s : GameState, s.activeIntervals = [] → sysTick s = none) := by
  refine ⟨animateRun n p f t tid hf0 hf1 ht0 ht1 hn, ?_, rfl, rfl, ?_, ?_⟩
  · simp [doneAnimState, lookupKey]
  · simp [sysTick, doneAnimState]
  · intro s hs
    simp [sysTick, hs]

/-- Claim C6, witness: player 2 moving from cell 3 to cell 7 stops after 4
ticks and no tick can fire on the stopped state. -/
theorem animation_stops_after_target_witness :
    animateN 4 (mkAnimState 2 3 7 1) = some (doneAnimState 2 7 1) ∧
    lookupKey (doneAnimState 2 7 1).playerPositions 2 =
      some { current := 7, endPos := 7 } ∧
    (doneAnimState 2 7 1).activeIntervals = [] ∧
    (doneAnimState 2 7 1).currentPlayer = none ∧
    sysTick (doneAnimState 2 7 1) = none ∧
    (∀ s : GameState, s.activeIntervals = [] → sysTick s = none) :=
  animation_stops_after_target 2 3 7 1 4 (by norm_num) (by norm_num) (by norm_num)
    (by norm_num) (by norm_num)

/-- Claim C3: after the gameEnd handler runs on a session that registered
the seven handlers from a fresh event source, the playerJailed handler is
still registered and still fires for a later playerJailed event, because the
source's teardown list has no removeEventListener call for it; the other six
handlers are removed. -/
theorem gameEnd_leaves_playerJailed_listener :
    onGameEnd (enableActiveGameListeners []) =
      [("playerJailed", GameHandler.onPlayerJailed)] ∧
    firesFor (onGameEnd (enableActiveGameListeners []))
      "playerJailed" GameHandler.onPlayerJailed ∧
    firesFor (enableActiveGameListeners [])
      "playerJailed" GameHandler.onPlayerJailed := by
  refine ⟨by decide, ?_, ?_⟩
  · unfold firesFor
    decide
  · unfold firesFor
    decide

/-- Claim C2, counterexample: with the session-start ownership map over
positions 1, 3 and 6, an ownership change naming untracked position 5 is not
a no-op: the handler adds key 5 to the map, so the key set after the handler
differs from the key set installed at session start. -/
theorem ownership_untracked_position_added :
    (onPropertyOwnerChanges
      { sampleState with propertyOwners := initPropertyOwners [1, 3, 6] }
      [{ property := { position := 5, name := "PositionFive" }, oldOwner := none,
         newOwner := some { id := 1, name := "Alice" } }]).map
        (fun r => keys r.1.propertyOwners) = some [1, 3, 6, 5] ∧
    keys (initPropertyOwners [1, 3, 6]) = [1, 3, 6] ∧
    ¬ (5 : Int) ∈ keys (initPropertyOwners [1, 3, 6]) := by
  refine ⟨by decide, by decide, by decide⟩

/-- Claim C2 (amended): after a propertyOwnerChanges event, the key set of
the ownership map is the key set before the event plus the first transfer's
property position: a tracked position leaves the key set unchanged, an
untracked position is added to the map (the write is unconditional, not a
no-op), and no key is ever removed. -/
theorem ownership_change_keyset (s : GameState) (c : OwnerChange)
    (rest : List OwnerChange) :
    ∃ s2 acts, onPropertyOwnerChanges s (c :: rest) = some (s2, acts) ∧
      (∀ k : Int, k ∈ keys s2.propertyOwners ↔
        k ∈ keys s.propertyOwners ∨ k = c.property.position) := by
  simp only [onPropertyOwnerChanges]
  refine ⟨_, _, rfl, ?_⟩
  intro k
  exact mem_keys_setKey s.propertyOwners c.property.position c.newOwner k

/-- Claim C2, witness: a change at untracked position 12 against the sample
session yields a map whose keys are the old keys plus 12. -/
theorem ownership_change_keyset_witness :
    ∃ s2 acts, onPropertyOwnerChanges sampleState
        [{ property := { position := 12, name := "PositionTwelve" }, oldOwner := none,
           newOwner := some { id := 2, name := "Bob" } }] = some (s2, acts) ∧
      (∀ k : Int, k ∈ keys s2.propertyOwners ↔
        k ∈ keys sampleState.propertyOwners ∨ k = 12) :=
  ownership_change_keyset sampleState
    { property := { position := 12, name := "PositionTwelve" }, oldOwner := none,
      newOwner := some { id := 2, name := "Bob" } } []

/-- Claim C4, counterexample: for a two-transfer payload (position 1 to
Alice, position 3 to Bob) over a map tracking positions 1 and 3, the handler
updates position 1 but leaves position 3 unowned: the second transfer is
never applied to the ownership map. -/
theorem ownership_second_transfer_ignored :
    (onPropertyOwnerChanges
      { sampleState with propertyOwners := initPropertyOwners [1, 3] }
      [changeA, changeB]).map
        (fun r => (lookupKey r.1.propertyOwners 1, lookupKey r.1.propertyOwners 3)) =
      some (some (some { id := 1, name := "Alice" }), some none) := by decide

/-- Claim C4 (amended): the handler applies only the first transfer of the
payload to the ownership map (eventData[0]); the position of any later
transfer that differs from the first one is left unchanged in the map. Every
transfer of the payload is passed to the ownership-summary view, with a null
owner passed as none (rendered unowned). -/
theorem ownership_change_applies_first_only (s : GameState) (c : OwnerChange)
    (rest : List OwnerChange) :
    onPropertyOwnerChanges s (c :: rest) =
      some ({ s with
          propertyOwners := setKey s.propertyOwners c.property.position c.newOwner },
        [RenderAction.viewUpdate ((c :: rest).map (fun ch =>
          { property := ch.property.name
            oldOwner := ch.oldOwner.map Owner.name
            newOwner := ch.newOwner.map Owner.name }))]) ∧
    (∀ d : OwnerChange, d ∈ rest → d.property.position ≠ c.property.position →
      lookupKey (setKey s.propertyOwners c.property.position c.newOwner)
          d.property.position =
        lookupKey s.propertyOwners d.property.position) := by
  refine ⟨rfl, ?_⟩
  intro d _ hne
  exact lookupKey_setKey_ne s.propertyOwners d.property.position c.property.position
    c.newOwner hne

/-- Claim C4, witness: the amended statement at the sample session with the
two-transfer payload changeA then changeB. -/
theorem ownership_change_applies_first_only_witness :
    onPropertyOwnerChanges sampleState (changeA :: [changeB]) =
      some ({ sampleState with
          propertyOwners := setKey sampleState.propertyOwners changeA.property.position
            changeA.newOwner },
        [RenderAction.viewUpdate ((changeA :: [changeB]).map (fun ch =>
          { property := ch.property.name
            oldOwner := ch.oldOwner.map Owner.name
            newOwner := ch.newOwner.map Owner.name }))]) ∧
    (∀ d : OwnerChange, d ∈ [changeB] → d.property.position ≠ changeA.property.position →
      lookupKey (setKey sampleState.propertyOwners changeA.property.position
          changeA.newOwner) d.property.position =
        lookupKey sampleState.propertyOwners d.property.position) :=
  ownership_change_applies_first_only sampleState changeA [changeB]

/-- Claim C7: for a playerMove event whose old-position field is the
jail-departure value -1, the handler stores current = 9 (the pre-jail marker
cell) for the moving player before arming the animation interval, together
with the parsed target, so the forward animation proceeds from cell 9. -/
theorem onPlayerMove_jail_departure (s : GameState) (uid : Int) (t : MoveTuple)
    (rest : List MoveTuple) (pp0 : PlayerPos)
    (hold : t.oldPosition = -1)
    (hlk : lookupKey s.playerPositions t.playerID = some pp0) :
    ∃ s2 acts, onPlayerMove s uid (t :: rest) = some (s2, acts) ∧
      lookupKey s2.playerPositions t.playerID =
        some { current := 9,
               endPos := if t.newPosition = -1 then 99 else t.newPosition } ∧
      s2.currentPlayer = some t.playerID ∧
      s2.timer = some s.nextIntervalId ∧
      s2.activeIntervals = s.activeIntervals ++ [s.nextIntervalId] := by
  simp only [onPlayerMove, hlk, hold, startAnimation]
  refine ⟨_, _, rfl, ?_, rfl, rfl, rfl⟩
  simp only [if_pos rfl]
  exact lookupKey_setKey_self s.playerPositions t.playerID _

/-- Claim C7, witness: player 1 leaving jail (old position -1) toward cell
14 in the sample session is stored at current = 9 with target 14 and a
freshly armed interval. -/
theorem onPlayerMove_jail_departure_witness :
    ∃ s2 acts, onPlayerMove sampleState 1
        [{ playerID := 1, newPosition := 14, oldPosition := -1, jailed := false }] =
        some (s2, acts) ∧
      lookupKey s2.playerPositions 1 =
        some { current := 9, endPos := if (14 : Int) = -1 then 99 else 14 } ∧
      s2.currentPlayer = some 1 ∧
      s2.timer = some sampleState.nextIntervalId ∧
      s2.activeIntervals = sampleState.activeIntervals ++ [sampleState.nextIntervalId] :=
  onPlayerMove_jail_departure sampleState 1
    { playerID := 1, newPosition := 14, oldPosition := -1, jailed := false } []
    { current := 3, endPos := 3 } (by decide) (by decide)

/-- Claim C8: for a playerMove event, the recorded actions contain the
buy-property affordance (parameterized by the game id, the moving player and
the landing position) exactly when the moving player's id equals the local
user's id, the landing position is a key of the ownership map, and that
position's owner is the unowned sentinel none; otherwise no action is
recorded. -/
theorem onPlayerMove_buy_button (s : GameState) (uid : Int) (t : MoveTuple)
    (rest : List MoveTuple) (pp0 : PlayerPos)
    (hlk : lookupKey s.playerPositions t.playerID = some pp0) :
    (onPlayerMove s uid (t :: rest)).map (fun r => r.2) =
      some (if t.playerID = uid ∧ hasKey s.propertyOwners t.newPosition = true ∧
          lookupKey s.propertyOwners t.newPosition = some none then
        [RenderAction.enableBuyPropertyButton s.gameID t.playerID t.newPosition]
      else []) := by
  simp only [onPlayerMove, hlk, startAnimation]
  rfl

/-- Claim C8, witness: the local user (id 1) landing on tracked unowned
position 5 in the sample session. -/
theorem onPlayerMove_buy_button_witness :
    (onPlayerMove sampleState 1
        [{ playerID := 1, newPosition := 5, oldPosition := 3, jailed := false }]).map
        (fun r => r.2) =
      some (if (1 : Int) = 1 ∧ hasKey sampleState.propertyOwners 5 = true ∧
          lookupKey sampleState.propertyOwners 5 = some none then
        [RenderAction.enableBuyPropertyButton sampleState.gameID 1 5]
      else []) :=
  onPlayerMove_buy_button sampleState 1
    { playerID := 1, newPosition := 5, oldPosition := 3, jailed := false } []
    { current := 3, endPos := 3 } (by decide)

/-- Claim C9: two playerMove payloads that agree tuple by tuple on player
id, new position and old position, and may differ in the fourth element (the
jailed flag), produce identical handler results: the same state update and
the same recorded render actions. The flag is never read by the handler;
jail entry is signalled only by a new position of -1 and departure only by
an old position of -1. (The raw event is also forwarded to the external
game-log renderer, which is outside the modelled core.) -/
theorem onPlayerMove_ignores_jailed_flag (s : GameState) (uid : Int)
    (l1 l2 : List MoveTuple)
    (h : List.Forall₂ (fun a b => a.playerID = b.playerID ∧
      a.newPosition = b.newPosition ∧ a.oldPosition = b.oldPosition) l1 l2) :
    onPlayerMove s uid l1 = onPlayerMove s uid l2 := by
  cases h with
  | nil => rfl
  | cons hab htail =>
    obtain ⟨h1, h2, h3⟩ := hab
    simp only [onPlayerMove, h1, h2, h3]

/-- Claim C9, witness: the same move of player 1 with the jailed flag false
and with it true yields the same result on the sample session. -/
theorem onPlayerMove_ignores_jailed_flag_witness :
    onPlayerMove sampleState 1
        [{ playerID := 1, newPosition := 5, oldPosition := 3, jailed := false }] =
      onPlayerMove sampleState 1
        [{ playerID := 1, newPosition := 5, oldPosition := 3, jailed := true }] :=
  onPlayerMove_ignores_jailed_flag sampleState 1 _ _
    (List.Forall₂.cons ⟨rfl, rfl, rfl⟩ List.Forall₂.nil)

/-- Claim C10: handling a playerMove while an interval tid0 is still armed
(and held by the timer variable) overwrites the timer handle with the fresh
interval id and the current-player marker with the mover, without cancelling
tid0: the old interval stays armed, and any clearInterval that goes through
the new timer handle (as the completion and jail paths do) leaves tid0
armed; only the most recently armed interval can be cancelled that way. -/
theorem onPlayerMove_leaks_old_interval (s : GameState) (uid : Int) (t : MoveTuple)
    (rest : List MoveTuple) (pp0 : PlayerPos) (tid0 : Nat)
    (hlk : lookupKey s.playerPositions t.playerID = some pp0)
    (htimer : s.timer = some tid0)
    (hactive : tid0 ∈ s.activeIntervals)
    (hfresh : tid0 ≠ s.nextIntervalId) :
    ∃ s2 acts, onPlayerMove s uid (t :: rest) = some (s2, acts) ∧
      s2.timer = some s.nextIntervalId ∧
      s2.timer ≠ s.timer ∧
      s2.currentPlayer = some t.playerID ∧
      tid0 ∈ s2.activeIntervals ∧
      tid0 ∈ (clearIntervalTimer s2).activeIntervals ∧
      (∀ s3 : GameState, s3.timer = some s.nextIntervalId →
        tid0 ∈ s3.activeIntervals →
        tid0 ∈ (clearIntervalTimer s3).activeIntervals) := by
  simp only [onPlayerMove, hlk, startAnimation]
  refine ⟨_, _, rfl, rfl, ?_, rfl, ?_, ?_, ?_⟩
  · rw [htimer]
    simp only [ne_eq, Option.some.injEq]
    exact fun hh => hfresh hh.symm
  · exact List.mem_append_left _ hactive
  · simp only [clearIntervalTimer]
    rw [mem_clearId]
    exact ⟨List.mem_append_left _ hactive, hfresh⟩
  · intro s3 h3t h3a
    simp only [clearIntervalTimer, h3t]
    rw [mem_clearId]
    exact ⟨h3a, hfresh⟩

/-- Claim C10, witness: a move of player 1 arriving while interval 0 is
still armed in midAnimState arms interval 1 as the new timer handle and
leaves interval 0 armed and uncancellable through the new handle. -/
theorem onPlayerMove_leaks_old_interval_witness :
    ∃ s2 acts, onPlayerMove midAnimState 1
        [{ playerID := 1, newPosition := 12, oldPosition := 3, jailed := false }] =
        some (s2, acts) ∧
      s2.timer = some midAnimState.nextIntervalId ∧
      s2.timer ≠ midAnimState.timer ∧
      s2.currentPlayer = some 1 ∧
      0 ∈ s2.activeIntervals ∧
      0 ∈ (clearIntervalTimer s2).activeIntervals ∧
      (∀ s3 : GameState, s3.timer = some midAnimState.nextIntervalId →
        0 ∈ s3.activeIntervals →
        0 ∈ (clearIntervalTimer s3).activeIntervals) :=
  onPlayerMove_leaks_old_interval midAnimState 1
    { playerID := 1, newPosition := 12, oldPosition := 3, jailed := false } []
    { current := 3, endPos := 7 } 0 (by decide) (by decide) (by decide) (by decide)
